import Mathlib

/-!
Verification of the spendguard-sdk repository: a shallow embedding of
`examples/reconcile_spendguard_billing.py`, `examples/generate_spendguard_openai_traffic.py`
and `skills/spendguard-strict-budget-runner/scripts/bootstrap_strict_budget.py`,
together with proofs settling the frozen claims about the spec.

Modelling conventions:
* Python `float` values are modelled as exact rationals (`ℚ`); every concrete
  input used in a counterexample or witness below is chosen so that the binary64
  evaluation of the source is exact, hence agrees with the rational model.
* `json.loads` is modelled as an oracle outcome `Except Unit JVal` (the library
  parser is outside the repository); JSON numbers are modelled as integers,
  matching the integer microcent figures of the ledger schema.
* HTTP transport is modelled as an environment assigning each request an
  outcome (`HttpResult`); the scripts' functions become trace-producing
  functions over that environment.  `time.sleep` and stdout printing are not
  modelled (they produce no observable claim-relevant state).
-/

namespace SpendGuard

/-- JSON values as produced by `json.loads`. -/
inductive JVal where
  | jnull
  | jbool (b : Bool)
  | jnum (n : Int)
  | jstr (s : String)
  | jarr (elems : List JVal)
  | jobj (fields : List (String × JVal))

/-- Dictionary lookup in a JSON object; on duplicate keys `json.loads` keeps
the last binding, so we search the reversed field list. -/
def jlookup (fields : List (String × JVal)) (k : String) : Option JVal :=
  (fields.reverse.find? (fun p => p.1 == k)).map (fun p => p.2)

/-- Python truthiness of a JSON value (`bool(v)`). -/
def pyTruthy : JVal → Bool
  | .jnull => false
  | .jbool b => b
  | .jnum n => n != 0
  | .jstr s => s != ""
  | .jarr xs => !xs.isEmpty
  | .jobj fs => !fs.isEmpty

/-- Python `s.strip()`: drop whitespace from both ends. -/
def pyStrip (s : String) : String :=
  String.mk (((s.data.dropWhile Char.isWhitespace).reverse.dropWhile Char.isWhitespace).reverse)

/-- The natural number denoted by a list of decimal digit characters. -/
def natOfDigits (cs : List Char) : Nat :=
  cs.foldl (fun a c => a * 10 + (c.toNat - 48)) 0

/-- Python `int(s)` on a string: strip whitespace, optional sign, decimal
digits; anything else raises `ValueError` (`none`). -/
def pyParseInt (s : String) : Option Int :=
  match (pyStrip s).data with
  | [] => none
  | '+' :: ds => if ds.isEmpty || !ds.all Char.isDigit then none else some (natOfDigits ds)
  | '-' :: ds =>
    if ds.isEmpty || !ds.all Char.isDigit then none else some (-(natOfDigits ds : Int))
  | ds => if ds.all Char.isDigit then some (natOfDigits ds) else none

/-- Python's built-in `round` on an exact value: round to the nearest integer,
ties to the nearest even integer. -/
def pyRound (q : ℚ) : ℤ :=
  if q - (⌊q⌋ : ℚ) < 1 / 2 then ⌊q⌋
  else if (1 : ℚ) / 2 < q - (⌊q⌋ : ℚ) then ⌊q⌋ + 1
  else if ⌊q⌋ % 2 = 0 then ⌊q⌋ else ⌊q⌋ + 1

/-- `_usd_to_microcents` from `reconcile_spendguard_billing.py`:
`int(round(usd * 100 * 1_000_000))`. -/
def usd_to_microcents (usd : ℚ) : ℤ :=
  pyRound (usd * 100 * 1000000)

/-- Aggregation key `(provider, model)`. -/
abbrev AggKey := String × String

/-- A Python `dict[tuple[str, str], int]`, modelled as an insertion-ordered
association list with unique keys maintained by `dictInsert`. -/
abbrev MDict := List (AggKey × Int)

/-- `d.get(k)`. -/
def dictGet (d : MDict) (k : AggKey) : Option Int :=
  (d.find? (fun p => p.1 == k)).map (fun p => p.2)

/-- `d.get(k) or v` / `d.get(k, v)` for integer values (`or` and a default
agree here because a falsy stored value can only be `0` itself). -/
def dictGetD (d : MDict) (k : AggKey) (v : Int) : Int := (dictGet d k).getD v

/-- `d[k] = v`: replace the binding in place if the key is present, else
append it (Python dict insertion-order semantics). -/
def dictInsert (d : MDict) (k : AggKey) (v : Int) : MDict :=
  if d.any (fun p => p.1 == k) then d.map (fun p => if p.1 == k then (k, v) else p)
  else d ++ [(k, v)]

/-- The key list of a dict. -/
def dictKeys (d : MDict) : List AggKey := d.map (fun p => p.1)

/-- `d.update(d2)`: assign every binding of `d2` in insertion order. -/
def dictUpdate (d : MDict) : MDict → MDict
  | [] => d
  | (k, v) :: rest => dictUpdate (dictInsert d k v) rest

/-- `LedgerRow` dataclass of `reconcile_spendguard_billing.py`. -/
structure LedgerRow where
  provider : String
  model : String
  created_at : String
  realized_microcents : Int
  realized_cents : Int
deriving DecidableEq

/-- A raw row of the `cap_usage_ledger` sqlite table.  The `meta_json` column
is carried as the oracle outcome of `json.loads` on it (`.error ()` when the
column is not parseable as structured data; a NULL column, which the source
replaces by `{}` via `meta_json or {}`, is carried as `.ok (.jobj [])`). -/
structure DbRow where
  provider : String
  model : String
  created_at : String
  realized_cents : Int
  meta : Except Unit JVal

/-- `meta.get(k)`: `AttributeError` (modelled as `.error ()`) when the value is
not a dict, else the field or `None`. -/
def dictGetJ : JVal → String → Except Unit (Option JVal)
  | .jobj fs, k => .ok (jlookup fs k)
  | _, _ => .error ()

/-- `x or {}` applied to an optional field value. -/
def truthyOrEmptyObj : Option JVal → JVal
  | some v => if pyTruthy v then v else .jobj []
  | none => .jobj []

/-- `x or 0` applied to an optional field value. -/
def truthyOrZero : Option JVal → JVal
  | some v => if pyTruthy v then v else .jnum 0
  | none => .jnum 0

/-- Python `int(v)` on a JSON value: integers pass through, booleans coerce,
numeric strings parse, everything else raises (`.error ()`). -/
def pyInt : JVal → Except Unit Int
  | .jnum n => .ok n
  | .jbool b => .ok (if b then 1 else 0)
  | .jstr s =>
    match pyParseInt s with
    | some n => .ok n
    | none => .error ()
  | _ => .error ()

/-- Tail of the `try` block of `_load_sqlite_ledger` from the `totals` level:
`totals = bb.get("totals") or {}` has been computed (or raised), and
`int(totals.get("realized_microcents") or 0)` remains; any exception on the
way yields `0`. -/
def microcentsFromTotals (ototals : Except Unit (Option JVal)) : Int :=
  match ototals with
  | .error _ => 0
  | .ok ot =>
    match dictGetJ (truthyOrEmptyObj ot) "realized_microcents" with
    | .error _ => 0
    | .ok ov =>
      match pyInt (truthyOrZero ov) with
      | .error _ => 0
      | .ok n => n

/-- Tail of the `try` block from the `billing_breakdown` level. -/
def microcentsFromBB (obb : Except Unit (Option JVal)) : Int :=
  match obb with
  | .error _ => 0
  | .ok ob => microcentsFromTotals (dictGetJ (truthyOrEmptyObj ob) "totals")

/-- The `try` block of `_load_sqlite_ledger` computing `microcents` for one
row: `meta.get("billing_breakdown") or {}`, then `.get("totals") or {}`, then
`int(totals.get("realized_microcents") or 0)`; any exception (unparsable
metadata included) yields `0`. -/
def metaMicrocents (meta : Except Unit JVal) : Int :=
  match meta with
  | .error _ => 0
  | .ok m => microcentsFromBB (dictGetJ m "billing_breakdown")

/-- The `LedgerRow` built from one in-window database row. -/
def ledgerRowOfDb (r : DbRow) : LedgerRow :=
  ⟨r.provider, r.model, r.created_at, metaMicrocents r.meta, r.realized_cents⟩

/-- `_load_sqlite_ledger`: the sql query `created_at >= start and
created_at <= end` (sqlite BINARY text comparison, i.e. lexicographic, both
bounds inclusive) followed by the row-wise metadata extraction. -/
def load_sqlite_ledger (db : List DbRow) (startTs endTs : String) : List LedgerRow :=
  (db.filter (fun r => decide (startTs ≤ r.created_at) && decide (r.created_at ≤ endTs))).map
    ledgerRowOfDb

/-- Loop body accumulator of `_sum_microcents_by_provider_model`. -/
def sum_microcents_aux (sums : MDict) : List LedgerRow → MDict
  | [] => sums
  | r :: rest =>
    sum_microcents_aux
      (dictInsert sums (r.provider, r.model)
        (dictGetD sums (r.provider, r.model) 0 + r.realized_microcents)) rest

/-- `_sum_microcents_by_provider_model`. -/
def sum_microcents_by_provider_model (rows : List LedgerRow) : MDict :=
  sum_microcents_aux [] rows

/-- Split a leading run of decimal digits off a character list. -/
def splitDigits : List Char → List Char × List Char
  | [] => ([], [])
  | c :: rest =>
    if c.isDigit then
      let p := splitDigits rest
      (c :: p.1, p.2)
    else ([], c :: rest)

/-- Optional exponent suffix of a Python float literal: `(e|E)[+|-]digits`. -/
def parseExpSuffix (cs : List Char) (mant : ℚ) : Except Unit ℚ :=
  match cs with
  | [] => .ok mant
  | c :: rest =>
    if c = 'e' ∨ c = 'E' then
      let sr : Int × List Char :=
        match rest with
        | r0 :: rtail =>
          if r0 = '+' then (1, rtail) else if r0 = '-' then (-1, rtail) else (1, rest)
        | [] => (1, rest)
      let p := splitDigits sr.2
      if p.1.isEmpty ∨ !p.2.isEmpty then .error ()
      else .ok (mant * (10 : ℚ) ^ (sr.1 * (natOfDigits p.1 : Int)))
    else .error ()

/-- Unsigned part of a Python float literal: `digits[.digits]`, `.digits`, with
optional exponent. -/
def parseUnsignedFloat (cs : List Char) : Except Unit ℚ :=
  let ip := splitDigits cs
  match ip.2 with
  | c :: rest2 =>
    if c = '.' then
      let fp := splitDigits rest2
      if ip.1.isEmpty ∧ fp.1.isEmpty then .error ()
      else
        parseExpSuffix fp.2
          ((natOfDigits ip.1 : ℚ) + (natOfDigits fp.1 : ℚ) / (10 : ℚ) ^ fp.1.length)
    else if ip.1.isEmpty then .error ()
    else parseExpSuffix (c :: rest2) (natOfDigits ip.1 : ℚ)
  | [] => if ip.1.isEmpty then .error () else parseExpSuffix [] (natOfDigits ip.1 : ℚ)

/-- Python `float(s)` on an already-stripped string, modelled as the exact
rational value of the decimal literal (binary64 rounding is not modelled; the
concrete inputs used below are chosen so that it is immaterial).  `inf`/`nan`
forms are out of scope of the ledger data and rejected. -/
def parseFloat (s : String) : Except Unit ℚ :=
  match s.data with
  | c :: rest =>
    if c = '+' then parseUnsignedFloat rest
    else if c = '-' then (parseUnsignedFloat rest).map (fun q => -q)
    else parseUnsignedFloat (c :: rest)
  | [] => parseUnsignedFloat []

/-- One row of a provider CSV export as produced by `csv.DictReader`: the
`model` and `cost_usd` cells, `none` when the column is absent from the file. -/
structure CsvRow where
  model : Option String
  cost_usd : Option String

/-- Loop of `_load_openai_csv`: strip both cells, skip a row with an empty
model or cost, parse and convert the cost, and accumulate per key. -/
def load_openai_csv_aux (sums : MDict) : List CsvRow → Except Unit MDict
  | [] => .ok sums
  | row :: rest =>
    let modelName := pyStrip (row.model.getD "")
    let cost := pyStrip (row.cost_usd.getD "")
    if modelName = "" ∨ cost = "" then load_openai_csv_aux sums rest
    else
      match parseFloat cost with
      | .error e => .error e
      | .ok usd =>
        load_openai_csv_aux
          (dictInsert sums ("openai", modelName)
            (dictGetD sums ("openai", modelName) 0 + usd_to_microcents usd)) rest

/-- `_load_openai_csv`. -/
def load_openai_csv (rows : List CsvRow) : Except Unit MDict :=
  load_openai_csv_aux [] rows

/-- Loop of `_load_anthropic_csv` (intentionally duplicated per-provider logic
in the source; only the fixed provider tag differs). -/
def load_anthropic_csv_aux (sums : MDict) : List CsvRow → Except Unit MDict
  | [] => .ok sums
  | row :: rest =>
    let modelName := pyStrip (row.model.getD "")
    let cost := pyStrip (row.cost_usd.getD "")
    if modelName = "" ∨ cost = "" then load_anthropic_csv_aux sums rest
    else
      match parseFloat cost with
      | .error e => .error e
      | .ok usd =>
        load_anthropic_csv_aux
          (dictInsert sums ("anthropic", modelName)
            (dictGetD sums ("anthropic", modelName) 0 + usd_to_microcents usd)) rest

/-- `_load_anthropic_csv`. -/
def load_anthropic_csv (rows : List CsvRow) : Except Unit MDict :=
  load_anthropic_csv_aux [] rows

/-- Loop of `_load_gemini_csv`. -/
def load_gemini_csv_aux (sums : MDict) : List CsvRow → Except Unit MDict
  | [] => .ok sums
  | row :: rest =>
    let modelName := pyStrip (row.model.getD "")
    let cost := pyStrip (row.cost_usd.getD "")
    if modelName = "" ∨ cost = "" then load_gemini_csv_aux sums rest
    else
      match parseFloat cost with
      | .error e => .error e
      | .ok usd =>
        load_gemini_csv_aux
          (dictInsert sums ("gemini", modelName)
            (dictGetD sums ("gemini", modelName) 0 + usd_to_microcents usd)) rest

/-- `_load_gemini_csv`. -/
def load_gemini_csv (rows : List CsvRow) : Except Unit MDict :=
  load_gemini_csv_aux [] rows

/-- The three CSV adapters differ only in the fixed provider tag they attach
to every key; this tag-generic form is used to prove facts about all three at
once (each adapter is proved equal to its instance below). -/
def csvLoadAux (tag : String) (sums : MDict) : List CsvRow → Except Unit MDict
  | [] => .ok sums
  | row :: rest =>
    let modelName := pyStrip (row.model.getD "")
    let cost := pyStrip (row.cost_usd.getD "")
    if modelName = "" ∨ cost = "" then csvLoadAux tag sums rest
    else
      match parseFloat cost with
      | .error e => .error e
      | .ok usd =>
        csvLoadAux tag
          (dictInsert sums (tag, modelName)
            (dictGetD sums (tag, modelName) 0 + usd_to_microcents usd)) rest

/-- The `provider_sums` accumulation of `main`: start from the empty dict and
`update` with each provided adapter output in the fixed order openai,
anthropic, gemini. -/
def combineProviderSums (o a g : Option MDict) : MDict :=
  let d0 : MDict := []
  let d1 := match o with | some x => dictUpdate d0 x | none => d0
  let d2 := match a with | some x => dictUpdate d1 x | none => d1
  match g with | some x => dictUpdate d2 x | none => d2

/-- The six fractional digits of `m < 10^6` rendered with leading zeros, as
`%.6f` renders the fractional part. -/
def pad6 (m : Nat) : String :=
  String.mk [Nat.digitChar (m / 100000 % 10), Nat.digitChar (m / 10000 % 10),
    Nat.digitChar (m / 1000 % 10), Nat.digitChar (m / 100 % 10),
    Nat.digitChar (m / 10 % 10), Nat.digitChar (m % 10)]

/-- `_format_usd_from_microcents`: `microcents / 1e8` rendered by `%.6f`, i.e.
sign, then the integer and six-digit fractional part of `|microcents| / 100`
microdollars rounded half-to-even (the rounding of `%.6f`; binary64 division
is modelled as exact division of the rational value). -/
def format_usd_from_microcents (microcents : Int) : String :=
  let mag : Nat := (pyRound ((microcents.natAbs : ℚ) / 100)).toNat
  (if microcents < 0 then "-" else "") ++ toString (mag / 1000000) ++ "." ++ pad6 (mag % 1000000)

/-- Python tuple comparison `(p1, m1) <= (p2, m2)` on string pairs:
lexicographic by provider then model. -/
def keyLe (a b : AggKey) : Prop := a.1 < b.1 ∨ (a.1 = b.1 ∧ a.2 ≤ b.2)

instance : DecidableRel keyLe := fun a b => by
  unfold keyLe; infer_instance

instance : IsTotal AggKey keyLe where
  total a b := by
    rcases lt_trichotomy a.1 b.1 with h | h | h
    · exact Or.inl (Or.inl h)
    · rcases le_total a.2 b.2 with h2 | h2
      · exact Or.inl (Or.inr ⟨h, h2⟩)
      · exact Or.inr (Or.inr ⟨h.symm, h2⟩)
    · exact Or.inr (Or.inl h)

instance : IsTrans AggKey keyLe where
  trans a b c hab hbc := by
    rcases hab with h1 | ⟨e1, l1⟩
    · rcases hbc with h2 | ⟨e2, _⟩
      · exact Or.inl (h1.trans h2)
      · exact Or.inl (e2 ▸ h1)
    · rcases hbc with h2 | ⟨e2, l2⟩
      · exact Or.inl (e1 ▸ h2)
      · exact Or.inr ⟨e1.trans e2, l1.trans l2⟩

/-- `sorted(set(ledger_sums.keys()) | set(provider_sums.keys()))`. -/
def sortedUnionKeys (L P : MDict) : List AggKey :=
  List.insertionSort keyLe ((dictKeys L ++ dictKeys P).dedup)

/-- One line of the report of `main`, with the three monetary figures kept in
microcents (the printed strings are produced by `format_usd_from_microcents`). -/
structure ReportRow where
  provider : String
  model : String
  ledger_microcents : Int
  provider_microcents : Int
  diff_microcents : Int
deriving DecidableEq

/-- The report loop of `main`: one row per key of the sorted union, with
`l = int(ledger_sums.get(key) or 0)`, `pr = int(provider_sums.get(key) or 0)`
and `diff = l - pr`. -/
def reconcileReport (L P : MDict) : List ReportRow :=
  (sortedUnionKeys L P).map (fun k =>
    ⟨k.1, k.2, dictGetD L k 0, dictGetD P k 0, dictGetD L k 0 - dictGetD P k 0⟩)

/-- The key of a report row. -/
def reportKey (r : ReportRow) : AggKey := (r.provider, r.model)

/-! ## HTTP transport model, shared by both scripts -/

/-- A successfully received response body: empty, valid JSON, or text that
`json.loads` rejects. -/
inductive Body where
  | empty
  | notJson
  | json (v : JVal)

/-- Body of an HTTP error response, carried with the oracle outcome of
`json.loads` on it (used by `_extract_detail`). -/
structure ErrBody where
  raw : String
  parsed : Except Unit JVal

/-- Outcome of one `urllib.request.urlopen` call. -/
inductive HttpResult where
  | success (b : Body)
  | httpErr (code : Int) (body : ErrBody)
  | urlErr (reason : String)

/-! ## bootstrap_strict_budget.py -/

/-- `_parse_positive_int`: `int(value)`, rejecting non-integers and values
`<= 0` with an argparse error. -/
def parse_positive_int (value : String) : Except String Int :=
  match pyParseInt value with
  | none => .error "must be an integer"
  | some parsed => if parsed ≤ 0 then .error "must be > 0" else .ok parsed

/-- `_extract_detail`: empty body yields a fixed message; unparsable bodies
are returned verbatim; a JSON object with a string `detail` field yields that
field; anything else is returned verbatim. -/
def extract_detail (raw : ErrBody) : String :=
  if raw.raw = "" then "request failed"
  else
    match raw.parsed with
    | .error _ => raw.raw
    | .ok v =>
      match v with
      | .jobj fs =>
        match jlookup fs "detail" with
        | some (.jstr d) => d
        | _ => raw.raw
      | _ => raw.raw

/-- `_request_json` of `bootstrap_strict_budget.py`: HTTP and URL errors
become `RuntimeError`s; an empty body returns `{}`; a body that is not valid
JSON raises `json.JSONDecodeError`; a JSON value that is not an object raises
`RuntimeError("Expected JSON object response")`; an object is returned. -/
def request_json (r : HttpResult) : Except String (List (String × JVal)) :=
  match r with
  | .httpErr code body => .error ("HTTP " ++ toString code ++ ": " ++ extract_detail body)
  | .urlErr reason => .error ("Request failed: " ++ reason)
  | .success .empty => .ok []
  | .success .notJson => .error "json.JSONDecodeError"
  | .success (.json v) =>
    match v with
    | .jobj fs => .ok fs
    | _ => .error "Expected JSON object response"

/-- `health.get("status") != "ok"` is false exactly when the field is the
string literal `"ok"`. -/
def isStatusOk (fs : List (String × JVal)) : Bool :=
  match jlookup fs "status" with
  | some (.jstr s) => s == "ok"
  | _ => false

/-- The HTTP calls `main` of `bootstrap_strict_budget.py` can issue, in the
order they appear in its trace. -/
inductive BCall where
  | healthCheck
  | createAgent (name : String)
  | setBudget (agentId : String) (hardLimit topup : Int)
  | createRun (agentId : String)
deriving DecidableEq

/-- Command-line inputs of `bootstrap_strict_budget.py` (the raw strings
handed to `_parse_positive_int` by argparse). -/
structure BootstrapArgs where
  name : String
  limitArg : String
  topupArg : Option String
  skipHealthCheck : Bool
  createRunFlag : Bool

/-- Response environment for one bootstrap invocation. -/
structure BootstrapEnv where
  health : HttpResult
  agent : HttpResult
  budget : HttpResult
  run : HttpResult

/-- Budget-onward tail of bootstrap `main`: the budget call, then optionally
the run call. -/
def bootstrapFromBudget (args : BootstrapArgs) (env : BootstrapEnv) (limit topup : Int)
    (tr : List BCall) (agentId : String) : List BCall × Except String Unit :=
  let tr := tr ++ [.setBudget agentId limit topup]
  match request_json env.budget with
  | .error e => (tr, .error e)
  | .ok _ =>
    if args.createRunFlag then
      let tr := tr ++ [.createRun agentId]
      match request_json env.run with
      | .error e => (tr, .error e)
      | .ok _ => (tr, .ok ())
    else (tr, .ok ())

/-- Agent-onward tail of bootstrap `main`: the agent call, the `agent_id`
shape check (`isinstance(agent_id, str)` and non-empty), then the budget
tail. -/
def bootstrapFromAgent (args : BootstrapArgs) (env : BootstrapEnv) (limit topup : Int)
    (tr : List BCall) : List BCall × Except String Unit :=
  let tr := tr ++ [.createAgent args.name]
  match request_json env.agent with
  | .error e => (tr, .error e)
  | .ok fs =>
    match jlookup fs "agent_id" with
    | some (.jstr s) =>
      if s = "" then (tr, .error "Agent creation did not return agent_id")
      else bootstrapFromBudget args env limit topup tr s
    | _ => (tr, .error "Agent creation did not return agent_id")

/-- Body of bootstrap `main` after argument parsing: optional health check,
then agent, budget, optional run. -/
def bootstrapAfterParse (args : BootstrapArgs) (env : BootstrapEnv) (limit topup : Int) :
    List BCall × Except String Unit :=
  if args.skipHealthCheck then bootstrapFromAgent args env limit topup []
  else
    match request_json env.health with
    | .error e => ([.healthCheck], .error e)
    | .ok fs =>
      if isStatusOk fs then bootstrapFromAgent args env limit topup [.healthCheck]
      else ([.healthCheck], .error "Health check failed: /health did not return status=ok")

/-- `main` of `bootstrap_strict_budget.py`: argparse validates `--limit` and
`--topup` through `_parse_positive_int` before any request; `topup` defaults
to `limit`; then the workflow runs.  Returns the list of HTTP calls issued and
the outcome. -/
def bootstrapRun (args : BootstrapArgs) (env : BootstrapEnv) :
    List BCall × Except String Unit :=
  match parse_positive_int args.limitArg with
  | .error e => ([], .error e)
  | .ok limit =>
    match args.topupArg with
    | none => bootstrapAfterParse args env limit limit
    | some ts =>
      match parse_positive_int ts with
      | .error e => ([], .error e)
      | .ok topup => bootstrapAfterParse args env limit topup

/-! ## generate_spendguard_openai_traffic.py -/

/-- `_http_json` of the traffic script: empty body returns `None`, any JSON
value is returned as-is (no object check), HTTP errors raise `RuntimeError`,
transport errors propagate `URLError`. -/
def http_json (r : HttpResult) : Except String (Option JVal) :=
  match r with
  | .success .empty => .ok none
  | .success (.json v) => .ok (some v)
  | .success .notJson => .error "json.JSONDecodeError"
  | .httpErr code body => .error ("HTTP " ++ toString code ++ ": " ++ body.raw)
  | .urlErr reason => .error ("URLError: " ++ reason)

/-- `resp.get(k) if isinstance(resp, dict) else None`. -/
def jsonField (v : Option JVal) (k : String) : Option JVal :=
  match v with
  | some (.jobj fs) => jlookup fs k
  | _ => none

/-- Python truthiness of an optional JSON value (`None` is falsy). -/
def optTruthy : Option JVal → Bool
  | some v => pyTruthy v
  | none => false

/-- The prompt of the loop iteration with 0-based index `i`; it embeds the
1-based request number `i + 1`. -/
def promptFor (i : Nat) : String :=
  "Give a concise, correct answer.\n" ++
  "Task: Return the first 25 prime numbers as a comma-separated list.\n" ++
  "Request number: " ++ toString (i + 1) ++ "\n"

/-- The HTTP calls the traffic script can issue. -/
inductive TEvent where
  | createAgent (name : String)
  | setBudget (hardLimit topup : Int)
  | createRun
  | metered (modelName prompt : String) (maxTok : Int) (effort : Option String)
deriving DecidableEq

/-- Response environment for one traffic-script invocation: outcomes of the
agent and budget calls and, per 0-based loop index, of the run-creation and
metered-response calls. -/
structure TrafficEnv where
  agent : HttpResult
  budget : HttpResult
  run : Nat → HttpResult
  response : Nat → HttpResult

/-- Command-line inputs of the traffic script. -/
structure TrafficArgs where
  modelName : String
  n : Int
  maxOutputTokens : Int
  hardLimitCents : Int
  topupCents : Int
  agentName : String
  reasoningEffort : Option String

/-- `if args.reasoning_effort:` — the reasoning block is attached only for a
truthy (non-empty) effort string. -/
def effortField (e : Option String) : Option String :=
  match e with
  | some s => if s = "" then none else some s
  | none => none

/-- The `for i in range(n)` loop of the traffic script, at current index `i`
with `rem` iterations remaining: create a run, check `run_id` for truthiness,
issue the metered request, recurse; any failure stops the loop (`time.sleep`
is not modelled). -/
def trafficLoop (env : TrafficEnv) (modelName : String) (maxTok : Int)
    (effort : Option String) : Nat → Nat → List TEvent × Except String Unit
  | _, 0 => ([], .ok ())
  | i, rem + 1 =>
    match http_json (env.run i) with
    | .error e => ([.createRun], .error e)
    | .ok v =>
      if optTruthy (jsonField v "run_id") then
        match http_json (env.response i) with
        | .error e => ([.createRun, .metered modelName (promptFor i) maxTok effort], .error e)
        | .ok _ =>
          let p := trafficLoop env modelName maxTok effort (i + 1) rem
          (.createRun :: .metered modelName (promptFor i) maxTok effort :: p.1, p.2)
      else ([.createRun], .error "Unexpected runs response")

/-- `main` of `generate_spendguard_openai_traffic.py`: the four client-side
validations (each a `SystemExit` before any HTTP call), the agent call and
`agent_id` truthiness check, the budget call, then the request loop. -/
def trafficMain (a : TrafficArgs) (env : TrafficEnv) : List TEvent × Except String Unit :=
  if a.n ≤ 0 then ([], .error "--n must be > 0")
  else if a.maxOutputTokens ≤ 0 then ([], .error "--max-output-tokens must be > 0")
  else if a.hardLimitCents ≤ 0 then ([], .error "--hard-limit-cents must be > 0")
  else if a.topupCents < 0 then ([], .error "--topup-cents must be >= 0")
  else
    match http_json env.agent with
    | .error e => ([.createAgent a.agentName], .error e)
    | .ok v =>
      if optTruthy (jsonField v "agent_id") then
        match http_json env.budget with
        | .error e =>
          ([.createAgent a.agentName, .setBudget a.hardLimitCents a.topupCents], .error e)
        | .ok _ =>
          let p := trafficLoop env a.modelName a.maxOutputTokens
            (effortField a.reasoningEffort) 0 a.n.toNat
          (.createAgent a.agentName :: .setBudget a.hardLimitCents a.topupCents :: p.1, p.2)
      else ([.createAgent a.agentName], .error "Unexpected agents response")

/-! ## Spec-side definitions (used only to state claims, never by the model) -/

/-- Modelled from the spec: round half away from zero, the rounding mode the
spec asserts for `usd_to_microcents`. -/
def roundHalfAwayFromZero (q : ℚ) : ℤ :=
  if 0 ≤ q then ⌊q + 1 / 2⌋ else -⌊-q + 1 / 2⌋

/-- Modelled from the spec: a non-negative USD amount `n / 10^6` with at most
six decimal digits "formatted with exactly 6 fractional digits". -/
def decimal6 (n : Nat) : String :=
  toString (n / 1000000) ++ "." ++ pad6 (n % 1000000)

/-- Modelled from the spec: the metadata outcome carries a parseable object
with the nested `billing_breakdown.totals.realized_microcents` field. -/
def hasRealizedField : Except Unit JVal → Bool
  | .error _ => false
  | .ok (.jobj fs) =>
    match jlookup fs "billing_breakdown" with
    | some (.jobj fs2) =>
      match jlookup fs2 "totals" with
      | some (.jobj fs3) => (jlookup fs3 "realized_microcents").isSome
      | _ => false
    | _ => false
  | .ok _ => false

/-- Iteration `i` of the traffic loop received a usable run: the run call
succeeded and its `run_id` field is truthy. -/
def goodRun (env : TrafficEnv) (i : Nat) : Prop :=
  ∃ v, http_json (env.run i) = .ok v ∧ optTruthy (jsonField v "run_id") = true

/-- Iteration `i`'s metered request succeeded. -/
def goodResp (env : TrafficEnv) (i : Nat) : Prop :=
  ∃ w, http_json (env.response i) = .ok w

/-- The agent-creation call of the bootstrap workflow returned a non-empty
string `agent_id` equal to `aid`. -/
def agentOk (env : BootstrapEnv) (aid : String) : Prop :=
  ∃ fs, request_json env.agent = .ok fs
    ∧ jlookup fs "agent_id" = some (.jstr aid) ∧ aid ≠ ""

/-! ## Dictionary lemmas -/

theorem find?_eq_none_of_any_eq_false {d : MDict} {k : AggKey}
    (h : d.any (fun p => p.1 == k) = false) : d.find? (fun p => p.1 == k) = none := by
  rw [List.find?_eq_none]
  intro p hp
  simp only [List.any_eq_false] at h
  exact h p hp

theorem find?_map_replace_self {d : MDict} {k : AggKey} {v : Int}
    (h : d.any (fun p => p.1 == k) = true) :
    (d.map (fun p => if p.1 == k then (k, v) else p)).find? (fun p => p.1 == k)
      = some (k, v) := by
  induction d with
  | nil => simp at h
  | cons p d ih =>
    simp only [List.any_cons, Bool.or_eq_true, beq_iff_eq] at h
    rw [List.map_cons]
    by_cases hp : p.1 = k
    · rw [show (if p.1 == k then (k, v) else p) = (k, v) from by simp [hp]]
      exact List.find?_cons_of_pos _ (by simp)
    · rw [show (if p.1 == k then (k, v) else p) = p from by simp [hp],
        List.find?_cons_of_neg _ (by simp [hp])]
      exact ih (by simpa [beq_iff_eq] using h.resolve_left hp)

theorem find?_map_replace_ne {d : MDict} {k k' : AggKey} {v : Int} (hne : k' ≠ k) :
    (d.map (fun p => if p.1 == k then (k, v) else p)).find? (fun p => p.1 == k')
      = d.find? (fun p => p.1 == k') := by
  induction d with
  | nil => rfl
  | cons p d ih =>
    rw [List.map_cons]
    by_cases hp : p.1 = k
    · rw [show (if p.1 == k then (k, v) else p) = (k, v) from by simp [hp],
        List.find?_cons_of_neg _ (by simp [Ne.symm hne]),
        List.find?_cons_of_neg _ (by simp [hp, Ne.symm hne]), ih]
    · by_cases hq : p.1 = k'
      · rw [show (if p.1 == k then (k, v) else p) = p from by simp [hp],
          List.find?_cons_of_pos _ (by simp [hq]),
          List.find?_cons_of_pos _ (by simp [hq])]
      · rw [show (if p.1 == k then (k, v) else p) = p from by simp [hp],
          List.find?_cons_of_neg _ (by simp [hq]),
          List.find?_cons_of_neg _ (by simp [hq]), ih]

theorem dictGet_insert_self (d : MDict) (k : AggKey) (v : Int) :
    dictGet (dictInsert d k v) k = some v := by
  unfold dictInsert dictGet
  by_cases h : d.any (fun p => p.1 == k) = true
  · rw [if_pos h, find?_map_replace_self h]
    rfl
  · rw [if_neg h, List.find?_append,
      find?_eq_none_of_any_eq_false (Bool.not_eq_true _ ▸ h),
      List.find?_cons_of_pos _ (by simp)]
    rfl

theorem dictGet_insert_ne (d : MDict) {k k' : AggKey} (v : Int) (hne : k' ≠ k) :
    dictGet (dictInsert d k v) k' = dictGet d k' := by
  unfold dictInsert dictGet
  by_cases h : d.any (fun p => p.1 == k) = true
  · rw [if_pos h, find?_map_replace_ne hne]
  · rw [if_neg h, List.find?_append]
    have h1 : [(k, v)].find? (fun p => p.1 == k') = none := by
      simp [Ne.symm hne]
    rw [h1, Option.or_none]

theorem dictKeys_map_replace (d : MDict) (k : AggKey) (v : Int) :
    dictKeys (d.map (fun p => if p.1 == k then (k, v) else p)) = dictKeys d := by
  induction d with
  | nil => rfl
  | cons p d ih =>
    simp only [dictKeys, List.map_cons] at ih ⊢
    have h1 : (if p.1 == k then (k, v) else p).1 = p.1 := by
      by_cases hp : p.1 = k
      · simp [hp]
      · simp [hp]
    rw [h1, ih]

theorem mem_dictKeys_insert {d : MDict} {k k' : AggKey} {v : Int} :
    k' ∈ dictKeys (dictInsert d k v) ↔ k' ∈ dictKeys d ∨ k' = k := by
  unfold dictInsert
  by_cases h : d.any (fun p => p.1 == k) = true
  · rw [if_pos h, dictKeys_map_replace]
    constructor
    · exact Or.inl
    · rintro (hm | rfl)
      · exact hm
      · simp only [List.any_eq_true] at h
        obtain ⟨p, hp, hpk⟩ := h
        have hpe : p.1 = k' := by simpa using hpk
        exact hpe ▸ List.mem_map_of_mem _ hp
  · rw [if_neg h]
    simp [dictKeys, List.map_append]

theorem nodup_dictKeys_insert {d : MDict} (k : AggKey) (v : Int)
    (h : (dictKeys d).Nodup) : (dictKeys (dictInsert d k v)).Nodup := by
  unfold dictInsert
  by_cases ha : d.any (fun p => p.1 == k) = true
  · rw [if_pos ha, dictKeys_map_replace]; exact h
  · rw [if_neg ha]
    have hk : k ∉ dictKeys d := by
      rw [Bool.not_eq_true, List.any_eq_false] at ha
      simp only [dictKeys, List.mem_map]
      rintro ⟨p, hp, rfl⟩
      exact ha p hp (by simp)
    have hkeys : dictKeys (d ++ [(k, v)]) = dictKeys d ++ [k] := by
      simp [dictKeys]
    rw [hkeys]
    exact List.Nodup.append h (List.nodup_singleton _)
      (fun a ha1 hb => hk ((List.mem_singleton.mp hb) ▸ ha1))

theorem dictGet_eq_none_of_notMem {d : MDict} {k : AggKey} (h : k ∉ dictKeys d) :
    dictGet d k = none := by
  have h1 : d.find? (fun p => p.1 == k) = none := by
    rw [List.find?_eq_none]
    intro p hp
    simp only [dictKeys, List.mem_map] at h
    simp only [Bool.not_eq_true, beq_eq_false_iff_ne, ne_eq]
    exact fun hpk => h ⟨p, hp, hpk⟩
  simp [dictGet, h1]

theorem dictGet_update_of_notMem (d : MDict) {d2 : MDict} {k : AggKey}
    (h : k ∉ dictKeys d2) : dictGet (dictUpdate d d2) k = dictGet d k := by
  induction d2 generalizing d with
  | nil => rfl
  | cons p rest ih =>
    obtain ⟨k2, v2⟩ := p
    simp only [dictKeys, List.map_cons, List.mem_cons, not_or] at h
    rw [dictUpdate, ih _ (by simpa [dictKeys] using h.2)]
    exact dictGet_insert_ne _ _ h.1

theorem pyRound_intCast (n : ℤ) : pyRound (n : ℚ) = n := by
  unfold pyRound
  rw [Int.floor_intCast]
  norm_num

theorem pyRound_add_half (k : ℤ) :
    pyRound ((k : ℚ) + 1 / 2) = if k % 2 = 0 then k else k + 1 := by
  unfold pyRound
  have hf : ⌊(k : ℚ) + 1 / 2⌋ = k := by
    rw [add_comm, Int.floor_add_int]
    norm_num
  rw [hf]
  have he : (k : ℚ) + 1 / 2 - k = 1 / 2 := by ring
  rw [he]
  norm_num

theorem abs_sub_pyRound_le_half (q : ℚ) : |q - (pyRound q : ℚ)| ≤ 1 / 2 := by
  have h0 : (⌊q⌋ : ℚ) ≤ q := Int.floor_le q
  have h1 : q < ⌊q⌋ + 1 := Int.lt_floor_add_one q
  unfold pyRound
  split
  · next h => rw [abs_of_nonneg (by linarith)]; linarith
  · next h =>
    push_neg at h
    split
    · next h2 => push_cast; rw [abs_of_nonpos (by linarith)]; linarith
    · next h2 =>
      push_neg at h2
      have he : q - ⌊q⌋ = 1 / 2 := le_antisymm h2 h
      split
      · rw [abs_of_nonneg (by linarith)]; linarith
      · push_cast; rw [abs_of_nonpos (by linarith)]; linarith

theorem dictGet_update_of_mem (d : MDict) {d2 : MDict} {k : AggKey}
    (hn : (dictKeys d2).Nodup) (h : k ∈ dictKeys d2) :
    dictGet (dictUpdate d d2) k = dictGet d2 k := by
  induction d2 generalizing d with
  | nil => simp [dictKeys] at h
  | cons p rest ih =>
    obtain ⟨k2, v2⟩ := p
    rw [dictUpdate]
    simp only [dictKeys, List.map_cons, List.nodup_cons] at hn
    by_cases hk : k = k2
    · subst hk
      rw [dictGet_update_of_notMem _ (by simpa [dictKeys] using hn.1),
        dictGet_insert_self]
      simp [dictGet, List.find?_cons]
    · simp only [dictKeys, List.map_cons, List.mem_cons] at h
      rcases h with h | h
      · exact absurd h hk
      · rw [ih _ hn.2 h]
        have h2 : ((k2, v2).1 == k) = false := by simp [Ne.symm hk]
        unfold dictGet
        rw [List.find?_cons_of_neg _ (by simp [Ne.symm hk])]

/-! ## CSV adapter lemmas -/

theorem load_openai_csv_aux_eq (rows : List CsvRow) : ∀ sums,
    load_openai_csv_aux sums rows = csvLoadAux "openai" sums rows := by
  induction rows with
  | nil => intro sums; rfl
  | cons r rest ih =>
    intro sums
    simp only [load_openai_csv_aux, csvLoadAux]
    split
    · exact ih _
    · split
      · rfl
      · exact ih _

theorem load_anthropic_csv_aux_eq (rows : List CsvRow) : ∀ sums,
    load_anthropic_csv_aux sums rows = csvLoadAux "anthropic" sums rows := by
  induction rows with
  | nil => intro sums; rfl
  | cons r rest ih =>
    intro sums
    simp only [load_anthropic_csv_aux, csvLoadAux]
    split
    · exact ih _
    · split
      · rfl
      · exact ih _

theorem load_gemini_csv_aux_eq (rows : List CsvRow) : ∀ sums,
    load_gemini_csv_aux sums rows = csvLoadAux "gemini" sums rows := by
  induction rows with
  | nil => intro sums; rfl
  | cons r rest ih =>
    intro sums
    simp only [load_gemini_csv_aux, csvLoadAux]
    split
    · exact ih _
    · split
      · rfl
      · exact ih _

theorem csvLoadAux_keys {tag : String} (rows : List CsvRow) : ∀ sums d,
    csvLoadAux tag sums rows = .ok d → ∀ k ∈ dictKeys d, k.1 = tag ∨ k ∈ dictKeys sums := by
  induction rows with
  | nil =>
    intro sums d h k hk
    simp only [csvLoadAux] at h
    cases h
    exact Or.inr hk
  | cons r rest ih =>
    intro sums d h k hk
    simp only [csvLoadAux] at h
    split at h
    · exact ih _ _ h k hk
    · split at h
      · cases h
      · rcases ih _ _ h k hk with htag | hmem
        · exact Or.inl htag
        · rcases mem_dictKeys_insert.mp hmem with hs | rfl
          · exact Or.inr hs
          · exact Or.inl rfl

theorem csvLoadAux_nodup {tag : String} (rows : List CsvRow) : ∀ sums d,
    (dictKeys sums).Nodup → csvLoadAux tag sums rows = .ok d → (dictKeys d).Nodup := by
  induction rows with
  | nil =>
    intro sums d hn h
    simp only [csvLoadAux] at h
    cases h
    exact hn
  | cons r rest ih =>
    intro sums d hn h
    simp only [csvLoadAux] at h
    split at h
    · exact ih _ _ hn h
    · split at h
      · cases h
      · exact ih _ _ (nodup_dictKeys_insert _ _ hn) h

theorem csvLoadAux_append_one {tag : String} (rows : List CsvRow) :
    ∀ sums d (mt ct : String) (c : ℚ),
    csvLoadAux tag sums rows = .ok d →
    pyStrip mt ≠ "" → pyStrip ct ≠ "" → parseFloat (pyStrip ct) = .ok c →
    csvLoadAux tag sums (rows ++ [⟨some mt, some ct⟩])
      = .ok (dictInsert d (tag, pyStrip mt)
          (dictGetD d (tag, pyStrip mt) 0 + usd_to_microcents c)) := by
  induction rows with
  | nil =>
    intro sums d mt ct c h hmt hct hpc
    simp only [csvLoadAux] at h
    cases h
    simp only [List.nil_append, csvLoadAux, Option.getD_some]
    rw [if_neg (by exact not_or.mpr ⟨hmt, hct⟩), hpc]
  | cons r rest ih =>
    intro sums d mt ct c h hmt hct hpc
    simp only [csvLoadAux] at h
    rw [List.cons_append]
    simp only [csvLoadAux]
    split at h
    · next hcond =>
      rw [if_pos hcond]
      exact ih _ _ _ _ _ h hmt hct hpc
    · next hcond =>
      rw [if_neg hcond]
      split at h
      · cases h
      · exact ih _ _ _ _ _ h hmt hct hpc

/-! ## Reconciliation report lemmas -/

theorem reconcileReport_keys (L P : MDict) :
    (reconcileReport L P).map reportKey = sortedUnionKeys L P := by
  unfold reconcileReport
  rw [List.map_map]
  have h1 : (reportKey ∘ fun k : AggKey =>
      (⟨k.1, k.2, dictGetD L k 0, dictGetD P k 0,
        dictGetD L k 0 - dictGetD P k 0⟩ : ReportRow)) = id := by
    funext k
    simp [reportKey]
  rw [h1, List.map_id]

theorem mem_sortedUnionKeys {L P : MDict} {k : AggKey} :
    k ∈ sortedUnionKeys L P ↔ k ∈ dictKeys L ∨ k ∈ dictKeys P := by
  unfold sortedUnionKeys
  rw [List.mem_insertionSort, List.mem_dedup, List.mem_append]

/-! ## Claim theorems -/

/-- C1: for every ledger sums mapping `L` (as produced by
`_sum_microcents_by_provider_model`) and provider sums mapping `P`, the
reconciliation report has exactly one row per key of `keys L ∪ keys P`,
sorted lexicographically by `(provider, model)`; each row carries the two
side sums (`0` when the key is absent from a side) and their difference; the
report of two empty sources is empty. -/
theorem C1_report_key_union (L P : MDict) :
    ((reconcileReport L P).map reportKey).Nodup
    ∧ (∀ k : AggKey,
        k ∈ (reconcileReport L P).map reportKey ↔ k ∈ dictKeys L ∨ k ∈ dictKeys P)
    ∧ List.Sorted keyLe ((reconcileReport L P).map reportKey)
    ∧ (∀ row ∈ reconcileReport L P,
        row.ledger_microcents = dictGetD L (row.provider, row.model) 0
        ∧ row.provider_microcents = dictGetD P (row.provider, row.model) 0
        ∧ row.diff_microcents = row.ledger_microcents - row.provider_microcents
        ∧ ((row.provider, row.model) ∉ dictKeys L → row.ledger_microcents = 0)
        ∧ ((row.provider, row.model) ∉ dictKeys P → row.provider_microcents = 0))
    ∧ reconcileReport (sum_microcents_by_provider_model []) [] = [] := by
  refine ⟨?_, ?_, ?_, ?_, rfl⟩
  · rw [reconcileReport_keys]
    unfold sortedUnionKeys
    exact (List.perm_insertionSort keyLe _).nodup_iff.mpr (List.nodup_dedup _)
  · intro k
    rw [reconcileReport_keys, mem_sortedUnionKeys]
  · rw [reconcileReport_keys]
    exact List.sorted_insertionSort keyLe _
  · intro row hrow
    unfold reconcileReport at hrow
    rcases List.mem_map.mp hrow with ⟨k, hk, rfl⟩
    refine ⟨by simp, by simp, by simp, ?_, ?_⟩
    · intro hnot
      simp only at hnot ⊢
      rw [dictGetD, dictGet_eq_none_of_notMem (by simpa using hnot)]
      rfl
    · intro hnot
      simp only at hnot ⊢
      rw [dictGetD, dictGet_eq_none_of_notMem (by simpa using hnot)]
      rfl

/-- Witness for C1 at a concrete pair of mappings (Scenario B shape: one
ledger key, no provider data). -/
theorem C1_report_key_union_witness :
    (("anthropic", "claude-x")
        ∈ (reconcileReport [(("anthropic", "claude-x"), 1000000)] []).map reportKey
      ↔ ("anthropic", "claude-x") ∈ dictKeys [(("anthropic", "claude-x"), 1000000)]
        ∨ ("anthropic", "claude-x") ∈ dictKeys ([] : MDict))
    ∧ reconcileReport (sum_microcents_by_provider_model []) [] = [] :=
  ⟨(C1_report_key_union [(("anthropic", "claude-x"), 1000000)] []).2.1 ("anthropic", "claude-x"),
   (C1_report_key_union [] []).2.2.2.2⟩

/-- C2 counterexample: at `usd = 1/512` (an exactly representable binary64
value whose two float multiplications by `100` and `1_000_000` are exact, so
the rational model coincides with the source), the scaled value is the exact
half `195312.5`; the code returns the even neighbour `195312`, while
round-half-away-from-zero as claimed would return `195313`. -/
theorem C2_counterexample :
    usd_to_microcents (1 / 512) = 195312
    ∧ roundHalfAwayFromZero ((1 / 512 : ℚ) * 100000000) = 195313
    ∧ usd_to_microcents (1 / 512) ≠ roundHalfAwayFromZero ((1 / 512 : ℚ) * 100000000) := by
  have h1 : usd_to_microcents (1 / 512) = 195312 := by
    unfold usd_to_microcents pyRound
    norm_num
  have h2 : roundHalfAwayFromZero ((1 / 512 : ℚ) * 100000000) = 195313 := by
    unfold roundHalfAwayFromZero
    norm_num
  exact ⟨h1, h2, by rw [h1, h2]; decide⟩

/-- C2 (amended): `usd_to_microcents` computes `round(usd * 10^8)` with
Python's built-in rounding, i.e. to the nearest integer with ties going to
the nearest even integer (banker's rounding), not half-away-from-zero: the
result is always within `1/2` of the scaled value, and at an exact halfway
point `k + 1/2` it is `k` when `k` is even and `k + 1` when `k` is odd. -/
theorem C2_amended_half_to_even (usd : ℚ) :
    |usd * 100000000 - (usd_to_microcents usd : ℚ)| ≤ 1 / 2
    ∧ (∀ k : ℤ, usd * 100000000 = (k : ℚ) + 1 / 2 →
        usd_to_microcents usd = if k % 2 = 0 then k else k + 1) := by
  have harg : usd * 100 * 1000000 = usd * 100000000 := by ring
  constructor
  · unfold usd_to_microcents
    rw [harg]
    exact abs_sub_pyRound_le_half _
  · intro k hk
    unfold usd_to_microcents
    rw [harg, hk, pyRound_add_half]

/-- Witness for C2 (amended) at `usd = 1/512`, `k = 195312` (even). -/
theorem C2_amended_half_to_even_witness :
    usd_to_microcents (1 / 512) = 195312 := by
  have h := (C2_amended_half_to_even (1 / 512)).2 195312 (by norm_num)
  rw [if_pos (by decide)] at h
  exact h

theorem microcentsFromTotals_eq_zero {ot : Option JVal}
    (h : ∀ fs3, ot = some (.jobj fs3) → jlookup fs3 "realized_microcents" = none) :
    microcentsFromTotals (.ok ot) = 0 := by
  cases ot with
  | none => rfl
  | some t =>
    cases t with
    | jobj fs3 =>
      obtain ⟨fs', hfs', hlk⟩ : ∃ fs', truthyOrEmptyObj (some (.jobj fs3)) = .jobj fs'
          ∧ jlookup fs' "realized_microcents" = none := by
        by_cases he : fs3.isEmpty
        · exact ⟨[], by simp [truthyOrEmptyObj, pyTruthy, he], rfl⟩
        · exact ⟨fs3, by simp [truthyOrEmptyObj, pyTruthy, he], h fs3 rfl⟩
      simp [microcentsFromTotals, hfs', dictGetJ, hlk, truthyOrZero, pyInt]
    | jnull => rfl
    | jbool b => cases b <;> rfl
    | jnum n =>
      by_cases hn : n = 0
      · simp [microcentsFromTotals, truthyOrEmptyObj, pyTruthy, hn, dictGetJ, jlookup,
          truthyOrZero, pyInt]
      · simp [microcentsFromTotals, truthyOrEmptyObj, pyTruthy, hn, dictGetJ]
    | jstr s =>
      by_cases hs : s = ""
      · simp [microcentsFromTotals, truthyOrEmptyObj, pyTruthy, hs, dictGetJ, jlookup,
          truthyOrZero, pyInt]
      · simp [microcentsFromTotals, truthyOrEmptyObj, pyTruthy, hs, dictGetJ]
    | jarr xs =>
      by_cases hx : xs.isEmpty
      · simp [microcentsFromTotals, truthyOrEmptyObj, pyTruthy, hx, dictGetJ, jlookup,
          truthyOrZero, pyInt]
      · simp [microcentsFromTotals, truthyOrEmptyObj, pyTruthy, hx, dictGetJ]

theorem microcentsFromBB_eq_zero {ob : Option JVal}
    (h : ∀ fs2, ob = some (.jobj fs2) →
      ∀ fs3, jlookup fs2 "totals" = some (.jobj fs3) →
        jlookup fs3 "realized_microcents" = none) :
    microcentsFromBB (.ok ob) = 0 := by
  cases ob with
  | none => exact @microcentsFromTotals_eq_zero (jlookup [] "totals") (by simp [jlookup])
  | some b =>
    cases b with
    | jobj fs2 =>
      by_cases he : fs2.isEmpty
      · have h0 : truthyOrEmptyObj (some (.jobj fs2)) = .jobj [] := by
          simp [truthyOrEmptyObj, pyTruthy, he]
        simp only [microcentsFromBB, h0, dictGetJ]
        exact @microcentsFromTotals_eq_zero (jlookup [] "totals") (by simp [jlookup])
      · have h0 : truthyOrEmptyObj (some (.jobj fs2)) = .jobj fs2 := by
          simp [truthyOrEmptyObj, pyTruthy, he]
        simp only [microcentsFromBB, h0, dictGetJ]
        exact microcentsFromTotals_eq_zero (h fs2 rfl)
    | jnull => rfl
    | jbool b => cases b <;> rfl
    | jnum n =>
      by_cases hn : n = 0
      · simp [microcentsFromBB, truthyOrEmptyObj, pyTruthy, hn, dictGetJ, jlookup,
          microcentsFromTotals, truthyOrZero, pyInt]
      · simp [microcentsFromBB, truthyOrEmptyObj, pyTruthy, hn, dictGetJ,
          microcentsFromTotals]
    | jstr s =>
      by_cases hs : s = ""
      · simp [microcentsFromBB, truthyOrEmptyObj, pyTruthy, hs, dictGetJ, jlookup,
          microcentsFromTotals, truthyOrZero, pyInt]
      · simp [microcentsFromBB, truthyOrEmptyObj, pyTruthy, hs, dictGetJ,
          microcentsFromTotals]
    | jarr xs =>
      by_cases hx : xs.isEmpty
      · simp [microcentsFromBB, truthyOrEmptyObj, pyTruthy, hx, dictGetJ, jlookup,
          microcentsFromTotals, truthyOrZero, pyInt]
      · simp [microcentsFromBB, truthyOrEmptyObj, pyTruthy, hx, dictGetJ,
          microcentsFromTotals]

theorem metaMicrocents_eq_zero {meta : Except Unit JVal}
    (h : hasRealizedField meta = false) : metaMicrocents meta = 0 := by
  cases meta with
  | error e => rfl
  | ok v =>
    cases v with
    | jobj fs =>
      simp only [hasRealizedField] at h
      refine microcentsFromBB_eq_zero ?_
      intro fs2 hfs2 fs3 hfs3
      simp only [hfs2] at h
      simp only [hfs3] at h
      cases hlk : jlookup fs3 "realized_microcents" with
      | none => rfl
      | some x => rw [hlk] at h; simp at h
    | jnull => rfl
    | jbool b => rfl
    | jnum n => rfl
    | jstr s => rfl
    | jarr xs => rfl

/-- C5: the ledger extraction is total (one output row per in-window input
row — no row aborts the batch), every in-window row is returned, and a row
whose metadata is unparsable or lacks the nested
`billing_breakdown.totals.realized_microcents` field yields
`realized_microcents = 0`. -/
theorem C5_malformed_metadata_tolerance (db : List DbRow) (startTs endTs : String) :
    (load_sqlite_ledger db startTs endTs).length
      = (db.filter
          (fun r => decide (startTs ≤ r.created_at) && decide (r.created_at ≤ endTs))).length
    ∧ (∀ r ∈ db, startTs ≤ r.created_at → r.created_at ≤ endTs →
        ledgerRowOfDb r ∈ load_sqlite_ledger db startTs endTs)
    ∧ (∀ r : DbRow, hasRealizedField r.meta = false →
        (ledgerRowOfDb r).realized_microcents = 0) := by
  refine ⟨?_, ?_, ?_⟩
  · unfold load_sqlite_ledger
    rw [List.length_map]
  · intro r hr h1 h2
    unfold load_sqlite_ledger
    exact List.mem_map_of_mem _ (List.mem_filter.mpr ⟨hr, by simp [h1, h2]⟩)
  · intro r h
    exact metaMicrocents_eq_zero h

/-- Witness for C5: a two-row window where the first row's metadata is
unparsable; both rows are returned and the malformed one carries `0`. -/
theorem C5_malformed_metadata_tolerance_witness :
    (ledgerRowOfDb ⟨"openai", "gpt-5.2-pro", "2026-02-10T01:00:00+00:00", 1, .error ()⟩
        ∈ load_sqlite_ledger
          [⟨"openai", "gpt-5.2-pro", "2026-02-10T01:00:00+00:00", 1, .error ()⟩,
           ⟨"openai", "gpt-5.2-pro", "2026-02-10T02:00:00+00:00", 1,
             .ok (.jobj [("billing_breakdown",
               .jobj [("totals", .jobj [("realized_microcents", .jnum 442100)])])])⟩]
          "2026-02-10T00:00:00+00:00" "2026-02-10T23:59:59+00:00")
    ∧ (ledgerRowOfDb ⟨"openai", "gpt-5.2-pro", "2026-02-10T01:00:00+00:00", 1,
        .error ()⟩).realized_microcents = 0 := by
  constructor
  · refine (C5_malformed_metadata_tolerance _ _ _).2.1 _ (by simp) ?_ ?_
    · show ("2026-02-10T00:00:00+00:00" ≤ "2026-02-10T01:00:00+00:00")
      simp
      decide
    · show ("2026-02-10T01:00:00+00:00" ≤ "2026-02-10T23:59:59+00:00")
      simp
      decide
  · exact (C5_malformed_metadata_tolerance [] "" "").2.2 _ rfl

/-! ## Formatting lemmas -/

theorem pad6_length (m : ℕ) : (pad6 m).length = 6 := rfl

theorem digitChar_isDigit_of_lt_ten : ∀ m : ℕ, m < 10 → (Nat.digitChar m).isDigit = true := by
  decide

theorem pad6_digits (m : ℕ) : ∀ c ∈ (pad6 m).data, c.isDigit = true := by
  intro c hc
  unfold pad6 at hc
  have hdata : (String.mk [Nat.digitChar (m / 100000 % 10), Nat.digitChar (m / 10000 % 10),
      Nat.digitChar (m / 1000 % 10), Nat.digitChar (m / 100 % 10),
      Nat.digitChar (m / 10 % 10), Nat.digitChar (m % 10)]).data
      = [Nat.digitChar (m / 100000 % 10), Nat.digitChar (m / 10000 % 10),
      Nat.digitChar (m / 1000 % 10), Nat.digitChar (m / 100 % 10),
      Nat.digitChar (m / 10 % 10), Nat.digitChar (m % 10)] := rfl
  rw [hdata] at hc
  simp only [List.mem_cons, List.not_mem_nil, or_false] at hc
  rcases hc with rfl | rfl | rfl | rfl | rfl | rfl <;>
    exact digitChar_isDigit_of_lt_ten _ (Nat.mod_lt _ (by norm_num))

theorem empty_string_append (t : String) : "" ++ t = t := rfl

theorem usd_to_microcents_sixDecimals (n : ℕ) :
    usd_to_microcents ((n : ℚ) / 1000000) = 100 * (n : ℤ) := by
  unfold usd_to_microcents
  have h : (n : ℚ) / 1000000 * 100 * 1000000 = ((100 * (n : ℤ) : ℤ) : ℚ) := by
    push_cast
    ring
  rw [h, pyRound_intCast]

theorem format_usd_hundred_nat (n : ℕ) :
    format_usd_from_microcents (100 * (n : ℤ)) = decimal6 n := by
  simp only [format_usd_from_microcents, decimal6]
  have h0 : ¬((100 * (n : ℤ)) < 0) := by
    push_neg
    positivity
  rw [if_neg h0]
  have h1 : (100 * (n : ℤ)).natAbs = 100 * n := by
    rw [Int.natAbs_mul]
    simp
  rw [h1]
  have h2 : ((100 * n : ℕ) : ℚ) / 100 = ((n : ℤ) : ℚ) := by push_cast; ring
  rw [h2, pyRound_intCast]
  rw [show ((n : ℤ).toNat) = n from Int.toNat_natCast n]
  rw [empty_string_append]

/-- C7: for every non-negative USD amount with at most six decimal digits
(`x = n / 10^6`), formatting the converted microcents reproduces `x` rendered
with exactly six fractional digits; the formatter always emits exactly six
fractional digit characters after the decimal point, and a negative
microcents value is rendered with a leading minus sign. -/
theorem C7_conversion_round_trip (n : ℕ) (mc : ℤ) :
    format_usd_from_microcents (usd_to_microcents ((n : ℚ) / 1000000)) = decimal6 n
    ∧ (∃ intPart fracPart : String,
        format_usd_from_microcents mc
          = (if mc < 0 then "-" else "") ++ intPart ++ "." ++ fracPart
        ∧ fracPart.length = 6 ∧ ∀ c ∈ fracPart.data, c.isDigit = true)
    ∧ (mc < 0 → (format_usd_from_microcents mc).data.head? = some '-') := by
  refine ⟨?_, ?_, ?_⟩
  · rw [usd_to_microcents_sixDecimals, format_usd_hundred_nat]
  · refine ⟨toString ((pyRound ((mc.natAbs : ℚ) / 100)).toNat / 1000000),
      pad6 ((pyRound ((mc.natAbs : ℚ) / 100)).toNat % 1000000), rfl, pad6_length _,
      pad6_digits _⟩
  · intro hneg
    simp only [format_usd_from_microcents, if_pos hneg]
    rfl

/-- Witness for C7 at `x = 0.004421` (Scenario A's total) and `mc = -100`. -/
theorem C7_conversion_round_trip_witness :
    format_usd_from_microcents (usd_to_microcents ((4421 : ℕ) / 1000000 : ℚ)) = decimal6 4421
    ∧ (format_usd_from_microcents (-100)).data.head? = some '-' :=
  ⟨(C7_conversion_round_trip 4421 (-100)).1,
   (C7_conversion_round_trip 4421 (-100)).2.2 (by decide)⟩

/-! ## Traffic generator lemmas -/

theorem trafficLoop_all_good (env : TrafficEnv) (modelName : String) (maxTok : Int)
    (effort : Option String) :
    ∀ (rem i : Nat), (∀ j, j < rem → goodRun env (i + j) ∧ goodResp env (i + j)) →
      trafficLoop env modelName maxTok effort i rem
        = ((List.range' i rem).flatMap
            (fun j => [TEvent.createRun, TEvent.metered modelName (promptFor j) maxTok effort]),
           .ok ()) := by
  intro rem
  induction rem with
  | zero => intro i _; rfl
  | succ r ih =>
    intro i h
    obtain ⟨⟨v, hv, ht⟩, ⟨w, hw⟩⟩ := h 0 (Nat.succ_pos r)
    have hv' : http_json (env.run i) = .ok v := by simpa using hv
    have ht' : optTruthy (jsonField v "run_id") = true := ht
    have hw' : http_json (env.response i) = .ok w := by simpa using hw
    have h' : ∀ j, j < r → goodRun env (i + 1 + j) ∧ goodResp env (i + 1 + j) := by
      intro j hj
      have hh := h (j + 1) (Nat.succ_lt_succ hj)
      have he : i + (j + 1) = i + 1 + j := by omega
      rwa [he] at hh
    simp only [trafficLoop, hv', ht', if_true, hw', ih _ h']
    rw [List.range'_succ, List.flatMap_cons]
    rfl

theorem trafficLoop_fail_fast (env : TrafficEnv) (modelName : String) (maxTok : Int)
    (effort : Option String) (msg : String) :
    ∀ (jf rem i : Nat), jf < rem →
      (∀ j, j < jf → goodRun env (i + j) ∧ goodResp env (i + j)) →
      goodRun env (i + jf) →
      http_json (env.response (i + jf)) = .error msg →
      trafficLoop env modelName maxTok effort i rem
        = ((List.range' i jf).flatMap
            (fun j => [TEvent.createRun, TEvent.metered modelName (promptFor j) maxTok effort])
           ++ [TEvent.createRun, TEvent.metered modelName (promptFor (i + jf)) maxTok effort],
           .error msg) := by
  intro jf
  induction jf with
  | zero =>
    intro rem i hlt hgood hrun hfail
    obtain ⟨r, rfl⟩ : ∃ r, rem = r + 1 := ⟨rem - 1, by omega⟩
    obtain ⟨v, hv, ht⟩ := hrun
    have hv' : http_json (env.run i) = .ok v := by simpa using hv
    have hfail' : http_json (env.response i) = .error msg := by simpa using hfail
    simp only [trafficLoop, hv', ht, if_true, hfail']
    simp
  | succ jp ih =>
    intro rem i hlt hgood hrun hfail
    obtain ⟨r, rfl⟩ : ∃ r, rem = r + 1 := ⟨rem - 1, by omega⟩
    obtain ⟨⟨v, hv, ht⟩, ⟨w, hw⟩⟩ := hgood 0 (Nat.succ_pos jp)
    have hv' : http_json (env.run i) = .ok v := by simpa using hv
    have hw' : http_json (env.response i) = .ok w := by simpa using hw
    have hgood' : ∀ j, j < jp → goodRun env (i + 1 + j) ∧ goodResp env (i + 1 + j) := by
      intro j hj
      have hh := hgood (j + 1) (Nat.succ_lt_succ hj)
      have he : i + (j + 1) = i + 1 + j := by omega
      rwa [he] at hh
    have hrun' : goodRun env (i + 1 + jp) := by
      have he : i + (jp + 1) = i + 1 + jp := by omega
      rwa [he] at hrun
    have hfail' : http_json (env.response (i + 1 + jp)) = .error msg := by
      have he : i + (jp + 1) = i + 1 + jp := by omega
      rwa [he] at hfail
    simp only [trafficLoop, hv', ht, if_true, hw',
      ih r (i + 1) (by omega) hgood' hrun' hfail']
    rw [List.range'_succ, List.flatMap_cons]
    have he : i + 1 + jp = i + (jp + 1) := by omega
    simp [he]

/-- C3 counterexample: with `n = 2` and every request succeeding, the traffic
generator issues two run-creation calls (one per request), refuting "one
run-creation call for the whole loop". -/
theorem C3_counterexample :
    ((trafficMain
        ⟨"gpt-5.2-pro", 2, 128, 500, 500, "traffic-test", none⟩
        ⟨.success (.json (.jobj [("agent_id", .jstr "a1")])),
         .success .empty,
         fun _ => .success (.json (.jobj [("run_id", .jstr "r1")])),
         fun _ => .success .empty⟩).1.count TEvent.createRun = 2)
    ∧ (2 : ℕ) ≠ 1 := by
  exact ⟨by rfl, by decide⟩

/-- C3 (amended): for every request count `N ≥ 1` (and valid remaining
arguments, a usable agent response and a successful budget call), the traffic
generator creates a fresh run per request — its trace interleaves `N`
run-creation calls with the `N` metered requests, the `i`-th request's prompt
embedding the 1-based sequence number `i`; a failing metered request aborts
all remaining iterations (the trace ends at the failing request). -/
theorem C3_run_per_request (a : TrafficArgs) (env : TrafficEnv)
    (hn : 1 ≤ a.n) (hmax : 0 < a.maxOutputTokens) (hhard : 0 < a.hardLimitCents)
    (htop : 0 ≤ a.topupCents)
    (hagent : ∃ v, http_json env.agent = .ok v ∧ optTruthy (jsonField v "agent_id") = true)
    (hbudget : ∃ w, http_json env.budget = .ok w) :
    ((∀ j, j < a.n.toNat → goodRun env j ∧ goodResp env j) →
      trafficMain a env
        = (TEvent.createAgent a.agentName :: TEvent.setBudget a.hardLimitCents a.topupCents ::
            (List.range' 0 a.n.toNat).flatMap
              (fun j => [TEvent.createRun,
                TEvent.metered a.modelName (promptFor j) a.maxOutputTokens
                  (effortField a.reasoningEffort)]),
           .ok ()))
    ∧ (∀ (msg : String) (jf : Nat), jf < a.n.toNat →
        (∀ j, j < jf → goodRun env j ∧ goodResp env j) →
        goodRun env jf →
        http_json (env.response jf) = .error msg →
        trafficMain a env
          = (TEvent.createAgent a.agentName :: TEvent.setBudget a.hardLimitCents a.topupCents ::
              ((List.range' 0 jf).flatMap (fun j => [TEvent.createRun,
                 TEvent.metered a.modelName (promptFor j) a.maxOutputTokens
                   (effortField a.reasoningEffort)])
               ++ [TEvent.createRun, TEvent.metered a.modelName (promptFor jf)
                     a.maxOutputTokens (effortField a.reasoningEffort)]),
             .error msg))
    ∧ (∀ j : Nat, ∃ pre post : String, promptFor j = pre ++ toString (j + 1) ++ post) := by
  obtain ⟨v, hv, htv⟩ := hagent
  obtain ⟨w, hw⟩ := hbudget
  have hmain : ∀ p : List TEvent × Except String Unit,
      trafficLoop env a.modelName a.maxOutputTokens (effortField a.reasoningEffort) 0 a.n.toNat
        = p →
      trafficMain a env
        = (TEvent.createAgent a.agentName :: TEvent.setBudget a.hardLimitCents a.topupCents ::
            p.1, p.2) := by
    intro p hp
    unfold trafficMain
    rw [if_neg (by omega), if_neg (by omega), if_neg (by omega), if_neg (by omega)]
    simp only [hv, htv, hw, if_true]
    rw [hp]
  refine ⟨?_, ?_, ?_⟩
  · intro hgood
    have h0 : ∀ j, j < a.n.toNat → goodRun env (0 + j) ∧ goodResp env (0 + j) := by
      intro j hj
      simpa [Nat.zero_add] using hgood j hj
    exact hmain _ (trafficLoop_all_good env _ _ _ _ 0 h0)
  · intro msg jf hjf hgood hrun hfail
    have h0 : ∀ j, j < jf → goodRun env (0 + j) ∧ goodResp env (0 + j) := by
      intro j hj
      simpa [Nat.zero_add] using hgood j hj
    have h1 : goodRun env (0 + jf) := by simpa [Nat.zero_add] using hrun
    have h2 : http_json (env.response (0 + jf)) = .error msg := by
      simpa [Nat.zero_add] using hfail
    have h3 := trafficLoop_fail_fast env a.modelName a.maxOutputTokens
      (effortField a.reasoningEffort) msg jf a.n.toNat 0 hjf h0 h1 h2
    have h4 := hmain _ h3
    simpa [Nat.zero_add] using h4
  · intro j
    exact ⟨"Give a concise, correct answer.\n" ++
      "Task: Return the first 25 prime numbers as a comma-separated list.\n" ++
      "Request number: ", "\n", by simp [promptFor, String.append_assoc]⟩

/-- Witness for C3 (amended) at `n = 2` with an all-success environment. -/
theorem C3_run_per_request_witness :
    trafficMain ⟨"gpt-5.2-pro", 2, 128, 500, 500, "traffic-test", none⟩
        ⟨.success (.json (.jobj [("agent_id", .jstr "a1")])),
         .success .empty,
         fun _ => .success (.json (.jobj [("run_id", .jstr "r1")])),
         fun _ => .success .empty⟩
      = (TEvent.createAgent "traffic-test" :: TEvent.setBudget 500 500 ::
          (List.range' 0 2).flatMap
            (fun j => [TEvent.createRun, TEvent.metered "gpt-5.2-pro" (promptFor j) 128 none]),
         .ok ()) := by
  have h := (C3_run_per_request
      ⟨"gpt-5.2-pro", 2, 128, 500, 500, "traffic-test", none⟩
      ⟨.success (.json (.jobj [("agent_id", .jstr "a1")])),
       .success .empty,
       fun _ => .success (.json (.jobj [("run_id", .jstr "r1")])),
       fun _ => .success .empty⟩
      (by decide) (by decide) (by decide) (by decide)
      ⟨some (.jobj [("agent_id", .jstr "a1")]), rfl, rfl⟩
      ⟨none, rfl⟩).1
    (fun j hj => ⟨⟨some (.jobj [("run_id", .jstr "r1")]), rfl, rfl⟩, ⟨none, rfl⟩⟩)
  exact h

/-! ## Bootstrap workflow lemmas -/

theorem parse_positive_int_pos {s : String} {n : Int}
    (h : parse_positive_int s = .ok n) : 0 < n := by
  unfold parse_positive_int at h
  split at h
  · cases h
  · split at h
    · cases h
    · next hle =>
      cases h
      omega

theorem bootstrapFromAgent_trace_shape (args : BootstrapArgs) (env : BootstrapEnv)
    (limit topup : Int) (tr : List BCall) :
    (bootstrapFromAgent args env limit topup tr).1 = tr ++ [BCall.createAgent args.name]
    ∨ ∃ aid, agentOk env aid
        ∧ ((bootstrapFromAgent args env limit topup tr).1
             = tr ++ [BCall.createAgent args.name, BCall.setBudget aid limit topup]
           ∨ (∃ b, request_json env.budget = .ok b)
             ∧ (bootstrapFromAgent args env limit topup tr).1
                 = tr ++ [BCall.createAgent args.name, BCall.setBudget aid limit topup,
                     BCall.createRun aid]) := by
  simp only [bootstrapFromAgent, bootstrapFromBudget]
  split
  · simp
  · next fs hfs =>
    split
    · next s hs =>
      split
      · simp
      · next hse =>
        refine Or.inr ⟨s, ⟨fs, hfs, hs, hse⟩, ?_⟩
        split
        · simp
        · next b hb =>
          split
          · split
            · exact Or.inr ⟨⟨b, hb⟩, by simp⟩
            · exact Or.inr ⟨⟨b, hb⟩, by simp⟩
          · exact Or.inl (by simp)
    · simp

theorem bootstrapAfterParse_trace_cases (args : BootstrapArgs) (env : BootstrapEnv)
    (limit topup : Int) :
    (bootstrapAfterParse args env limit topup).1 = [BCall.healthCheck]
    ∨ ∃ pre, (pre = ([] : List BCall) ∨ pre = [BCall.healthCheck])
        ∧ (bootstrapAfterParse args env limit topup).1
            = (bootstrapFromAgent args env limit topup pre).1 := by
  unfold bootstrapAfterParse
  split
  · exact Or.inr ⟨[], Or.inl rfl, rfl⟩
  · split
    · exact Or.inl rfl
    · split
      · exact Or.inr ⟨[BCall.healthCheck], Or.inr rfl, rfl⟩
      · exact Or.inl rfl

theorem bootstrapRun_trace_cases (args : BootstrapArgs) (env : BootstrapEnv) :
    (bootstrapRun args env).1 = []
    ∨ ∃ limit topup, parse_positive_int args.limitArg = .ok limit
        ∧ (args.topupArg = none ∧ topup = limit
           ∨ ∃ ts, args.topupArg = some ts ∧ parse_positive_int ts = .ok topup)
        ∧ (bootstrapRun args env).1 = (bootstrapAfterParse args env limit topup).1 := by
  unfold bootstrapRun
  split
  · exact Or.inl rfl
  · next limit hlim =>
    split
    · next hnone => exact Or.inr ⟨limit, limit, hlim, Or.inl ⟨hnone, rfl⟩, rfl⟩
    · next ts hts =>
      split
      · exact Or.inl rfl
      · next topup htp => exact Or.inr ⟨limit, topup, hlim, Or.inr ⟨ts, hts, htp⟩, rfl⟩

theorem bootstrapAfterParse_health_abort {args : BootstrapArgs} {env : BootstrapEnv}
    {limit topup : Int} {fs : List (String × JVal)}
    (hsk : args.skipHealthCheck = false)
    (hok : request_json env.health = .ok fs) (hbad : isStatusOk fs = false) :
    bootstrapAfterParse args env limit topup
      = ([BCall.healthCheck],
         .error "Health check failed: /health did not return status=ok") := by
  unfold bootstrapAfterParse
  rw [hsk]
  simp only [Bool.false_eq_true, if_false, hok, hbad]

theorem bootstrapAfterParse_health_error {args : BootstrapArgs} {env : BootstrapEnv}
    {limit topup : Int} {e : String}
    (hsk : args.skipHealthCheck = false)
    (herr : request_json env.health = .error e) :
    bootstrapAfterParse args env limit topup = ([BCall.healthCheck], .error e) := by
  unfold bootstrapAfterParse
  rw [hsk]
  simp only [Bool.false_eq_true, if_false, herr]

theorem request_json_not_obj {v : JVal} (h : ∀ fs, v ≠ .jobj fs) :
    request_json (.success (.json v)) = .error "Expected JSON object response" := by
  cases v with
  | jobj fs => exact absurd rfl (h fs)
  | jnull => rfl
  | jbool b => rfl
  | jnum n => rfl
  | jstr s => rfl
  | jarr xs => rfl

theorem bootstrapRun_setBudget_shape (args : BootstrapArgs) (env : BootstrapEnv)
    {aid : String} {h t : Int}
    (hmem : BCall.setBudget aid h t ∈ (bootstrapRun args env).1) :
    ∃ limit topup, parse_positive_int args.limitArg = .ok limit
      ∧ (args.topupArg = none ∧ topup = limit
         ∨ ∃ ts, args.topupArg = some ts ∧ parse_positive_int ts = .ok topup)
      ∧ h = limit ∧ t = topup
      ∧ agentOk env aid
      ∧ BCall.createAgent args.name ∈ (bootstrapRun args env).1 := by
  rcases bootstrapRun_trace_cases args env with htr | ⟨limit, topup, hlim, htp, htr⟩
  · rw [htr] at hmem; simp at hmem
  · rcases bootstrapAfterParse_trace_cases args env limit topup with hap | ⟨pre, hpre, hap⟩
    · rw [htr, hap] at hmem; simp at hmem
    · rcases bootstrapFromAgent_trace_shape args env limit topup pre with hfa | ⟨aid2, hok, hfa⟩
      · rw [htr, hap, hfa] at hmem
        rcases hpre with rfl | rfl <;> simp at hmem
      · rcases hfa with hfa | ⟨hb, hfa⟩ <;>
        · rw [htr, hap, hfa] at hmem ⊢
          rcases hpre with rfl | rfl <;>
          · simp at hmem
            obtain ⟨rfl, rfl, rfl⟩ := hmem
            exact ⟨_, _, hlim, htp, rfl, rfl, hok, by simp⟩

theorem bootstrapRun_createRun_shape (args : BootstrapArgs) (env : BootstrapEnv)
    {aid : String}
    (hmem : BCall.createRun aid ∈ (bootstrapRun args env).1) :
    (∃ h t, BCall.setBudget aid h t ∈ (bootstrapRun args env).1)
    ∧ ∃ b, request_json env.budget = .ok b := by
  rcases bootstrapRun_trace_cases args env with htr | ⟨limit, topup, hlim, htp, htr⟩
  · rw [htr] at hmem; simp at hmem
  · rcases bootstrapAfterParse_trace_cases args env limit topup with hap | ⟨pre, hpre, hap⟩
    · rw [htr, hap] at hmem; simp at hmem
    · rcases bootstrapFromAgent_trace_shape args env limit topup pre with hfa | ⟨aid2, hok, hfa⟩
      · rw [htr, hap, hfa] at hmem
        rcases hpre with rfl | rfl <;> simp at hmem
      · rcases hfa with hfa | ⟨hb, hfa⟩
        · rw [htr, hap, hfa] at hmem
          rcases hpre with rfl | rfl <;> simp at hmem
        · rw [htr, hap, hfa] at hmem ⊢
          rcases hpre with rfl | rfl <;>
          · simp at hmem
            subst hmem
            exact ⟨⟨limit, topup, by simp⟩, hb⟩

/-- C4: in every execution of the provisioning workflow, the budget endpoint
is called only with an `agent_id` that agent creation returned as a non-empty
string (the agent call precedes it in the trace), the run endpoint only after
a successful budget call, and a performed health check whose status is not
the literal `"ok"` aborts the workflow before any `POST /v1/agents` call. -/
theorem C4_provisioning_order (args : BootstrapArgs) (env : BootstrapEnv) :
    (∀ aid h t, BCall.setBudget aid h t ∈ (bootstrapRun args env).1 →
        agentOk env aid ∧ BCall.createAgent args.name ∈ (bootstrapRun args env).1)
    ∧ (∀ aid, BCall.createRun aid ∈ (bootstrapRun args env).1 →
        (∃ h t, BCall.setBudget aid h t ∈ (bootstrapRun args env).1)
        ∧ ∃ b, request_json env.budget = .ok b)
    ∧ (args.skipHealthCheck = false →
        ∀ fs, request_json env.health = .ok fs → isStatusOk fs = false →
          ∀ nm, BCall.createAgent nm ∉ (bootstrapRun args env).1) := by
  refine ⟨?_, ?_, ?_⟩
  · intro aid h t hmem
    obtain ⟨limit, topup, _, _, _, _, hok, hca⟩ := bootstrapRun_setBudget_shape args env hmem
    exact ⟨hok, hca⟩
  · intro aid hmem
    exact bootstrapRun_createRun_shape args env hmem
  · intro hsk fs hok hbad nm
    rcases bootstrapRun_trace_cases args env with htr | ⟨limit, topup, hlim, htp, htr⟩
    · rw [htr]; simp
    · rw [htr, bootstrapAfterParse_health_abort hsk hok hbad]
      simp

/-- Witness for C4: a degraded health response stops the workflow with no
agent-creation call. -/
theorem C4_provisioning_order_witness :
    BCall.createAgent "strict-budget-agent"
      ∉ (bootstrapRun ⟨"strict-budget-agent", "500", none, false, true⟩
          ⟨.success (.json (.jobj [("status", .jstr "degraded")])),
           .success (.json (.jobj [("agent_id", .jstr "a1")])),
           .success .empty, .success .empty⟩).1 :=
  (C4_provisioning_order ⟨"strict-budget-agent", "500", none, false, true⟩
      ⟨.success (.json (.jobj [("status", .jstr "degraded")])),
       .success (.json (.jobj [("agent_id", .jstr "a1")])),
       .success .empty, .success .empty⟩).2.2 rfl
    [("status", .jstr "degraded")] rfl rfl "strict-budget-agent"

/-- C9: every budget call of the provisioning workflow carries a strictly
positive hard limit and top-up (validated by `_parse_positive_int` before any
request), the top-up defaults to the hard limit when `--topup` is not given,
a `--limit 0` invocation issues no HTTP call at all, and the traffic
generator likewise rejects a non-positive hard limit before any request. -/
theorem C9_budget_validation (args : BootstrapArgs) (env : BootstrapEnv) :
    (∀ aid h t, BCall.setBudget aid h t ∈ (bootstrapRun args env).1 → 0 < h ∧ 0 < t)
    ∧ (args.topupArg = none →
        ∀ aid h t, BCall.setBudget aid h t ∈ (bootstrapRun args env).1 → t = h)
    ∧ (args.limitArg = "0" → (bootstrapRun args env).1 = [])
    ∧ (∀ (a : TrafficArgs) (tenv : TrafficEnv), a.hardLimitCents ≤ 0 →
        (trafficMain a tenv).1 = []) := by
  refine ⟨?_, ?_, ?_, ?_⟩
  · intro aid h t hmem
    obtain ⟨limit, topup, hlim, htp, hh, ht2, -, -⟩ :=
      bootstrapRun_setBudget_shape args env hmem
    subst hh
    subst ht2
    have h1 : 0 < h := parse_positive_int_pos hlim
    rcases htp with ⟨-, rfl⟩ | ⟨ts, -, hts⟩
    · exact ⟨h1, h1⟩
    · exact ⟨h1, parse_positive_int_pos hts⟩
  · intro hnone aid h t hmem
    obtain ⟨limit, topup, hlim, htp, hh, ht2, -, -⟩ :=
      bootstrapRun_setBudget_shape args env hmem
    subst hh
    subst ht2
    rcases htp with ⟨-, rfl⟩ | ⟨ts, hts, -⟩
    · rfl
    · rw [hnone] at hts
      cases hts
  · intro h0
    have hparse : parse_positive_int args.limitArg = .error "must be > 0" := by
      rw [h0]
      rfl
    simp only [bootstrapRun, hparse]
  · intro a tenv hla
    unfold trafficMain
    by_cases h1 : a.n ≤ 0
    · rw [if_pos h1]
    · by_cases h2 : a.maxOutputTokens ≤ 0
      · rw [if_neg h1, if_pos h2]
      · rw [if_neg h1, if_neg h2, if_pos hla]

/-- Witness for C9: `--limit 0` issues no call; the traffic generator with
hard limit `0` issues no call. -/
theorem C9_budget_validation_witness :
    (bootstrapRun ⟨"strict-budget-agent", "0", none, false, false⟩
        ⟨.success .empty, .success .empty, .success .empty, .success .empty⟩).1 = []
    ∧ (trafficMain ⟨"gpt-5.2-pro", 1, 128, 0, 500, "traffic-test", none⟩
        ⟨.success .empty, .success .empty, fun _ => .success .empty,
         fun _ => .success .empty⟩).1 = [] :=
  ⟨(C9_budget_validation ⟨"strict-budget-agent", "0", none, false, false⟩
      ⟨.success .empty, .success .empty, .success .empty, .success .empty⟩).2.2.1 rfl,
   (C9_budget_validation ⟨"strict-budget-agent", "0", none, false, false⟩
      ⟨.success .empty, .success .empty, .success .empty, .success .empty⟩).2.2.2
     ⟨"gpt-5.2-pro", 1, 128, 0, 500, "traffic-test", none⟩
     ⟨.success .empty, .success .empty, fun _ => .success .empty,
      fun _ => .success .empty⟩ (by decide)⟩

/-- C10: the bootstrap request helper returns the empty object for an empty
response body, turns any non-object JSON response into a raised error rather
than returning it, and consequently a health endpoint answering with a
non-object body fails the workflow before any agent-creation call. -/
theorem C10_request_json_objects :
    (request_json (.success .empty) = .ok [])
    ∧ (∀ v : JVal, (∀ fs, v ≠ .jobj fs) →
        request_json (.success (.json v)) = .error "Expected JSON object response")
    ∧ (∀ (args : BootstrapArgs) (env : BootstrapEnv) (v : JVal),
        args.skipHealthCheck = false → env.health = .success (.json v) →
        (∀ fs, v ≠ .jobj fs) →
        (∃ e, (bootstrapRun args env).2 = .error e)
        ∧ ∀ nm, BCall.createAgent nm ∉ (bootstrapRun args env).1) := by
  refine ⟨rfl, fun v h => request_json_not_obj h, ?_⟩
  intro args env v hsk hhe hno
  have herr : request_json env.health = .error "Expected JSON object response" := by
    rw [hhe]
    exact request_json_not_obj hno
  unfold bootstrapRun
  split
  · next e he => exact ⟨⟨e, rfl⟩, by simp⟩
  · split
    · rw [bootstrapAfterParse_health_error hsk herr]
      exact ⟨⟨_, rfl⟩, by simp⟩
    · split
      · next e2 he2 => exact ⟨⟨e2, rfl⟩, by simp⟩
      · rw [bootstrapAfterParse_health_error hsk herr]
        exact ⟨⟨_, rfl⟩, by simp⟩

/-- Witness for C10: an array-bodied health response raises instead of being
returned, and the workflow stops before agent creation. -/
theorem C10_request_json_objects_witness :
    request_json (.success (.json (.jarr []))) = .error "Expected JSON object response"
    ∧ BCall.createAgent "strict-budget-agent"
        ∉ (bootstrapRun ⟨"strict-budget-agent", "500", none, false, false⟩
            ⟨.success (.json (.jarr [])), .success .empty, .success .empty,
             .success .empty⟩).1 :=
  ⟨C10_request_json_objects.2.1 _ (fun _ h => JVal.noConfusion h),
   (C10_request_json_objects.2.2 ⟨"strict-budget-agent", "500", none, false, false⟩
      ⟨.success (.json (.jarr [])), .success .empty, .success .empty, .success .empty⟩
      (.jarr []) rfl rfl (fun _ h => JVal.noConfusion h)).2 "strict-budget-agent"⟩

/-! ## Adapter union and additivity -/

theorem load_openai_keys_tag {o : List CsvRow} {dO : MDict}
    (ho : load_openai_csv o = .ok dO) : ∀ k ∈ dictKeys dO, k.1 = "openai" := by
  intro k hk
  have h1 : csvLoadAux "openai" [] o = .ok dO := by
    rw [← load_openai_csv_aux_eq]
    exact ho
  rcases csvLoadAux_keys o [] dO h1 k hk with h2 | h2
  · exact h2
  · simp [dictKeys] at h2

theorem load_anthropic_keys_tag {a : List CsvRow} {dA : MDict}
    (ha : load_anthropic_csv a = .ok dA) : ∀ k ∈ dictKeys dA, k.1 = "anthropic" := by
  intro k hk
  have h1 : csvLoadAux "anthropic" [] a = .ok dA := by
    rw [← load_anthropic_csv_aux_eq]
    exact ha
  rcases csvLoadAux_keys a [] dA h1 k hk with h2 | h2
  · exact h2
  · simp [dictKeys] at h2

theorem load_gemini_keys_tag {g : List CsvRow} {dG : MDict}
    (hg : load_gemini_csv g = .ok dG) : ∀ k ∈ dictKeys dG, k.1 = "gemini" := by
  intro k hk
  have h1 : csvLoadAux "gemini" [] g = .ok dG := by
    rw [← load_gemini_csv_aux_eq]
    exact hg
  rcases csvLoadAux_keys g [] dG h1 k hk with h2 | h2
  · exact h2
  · simp [dictKeys] at h2

/-- C6: when the three adapter outputs are unioned into one provider-sums
mapping, every key of an earlier-loaded adapter keeps its original value after
the later adapters are loaded, because every adapter tags its keys with its
own fixed provider string. -/
theorem C6_adapter_union_no_overwrite (o a g : List CsvRow) (dO dA dG : MDict)
    (ho : load_openai_csv o = .ok dO) (ha : load_anthropic_csv a = .ok dA)
    (hg : load_gemini_csv g = .ok dG) :
    (∀ k ∈ dictKeys dO,
        dictGet (combineProviderSums (some dO) (some dA) (some dG)) k = dictGet dO k)
    ∧ (∀ k ∈ dictKeys dA,
        dictGet (combineProviderSums (some dO) (some dA) (some dG)) k = dictGet dA k)
    ∧ (∀ k ∈ dictKeys dO, k.1 = "openai")
    ∧ (∀ k ∈ dictKeys dA, k.1 = "anthropic")
    ∧ (∀ k ∈ dictKeys dG, k.1 = "gemini") := by
  have hko := load_openai_keys_tag ho
  have hka := load_anthropic_keys_tag ha
  have hkg := load_gemini_keys_tag hg
  have hcomb : combineProviderSums (some dO) (some dA) (some dG)
      = dictUpdate (dictUpdate (dictUpdate [] dO) dA) dG := rfl
  have hnO : (dictKeys dO).Nodup := by
    have hx : csvLoadAux "openai" [] o = .ok dO := by
      rw [← load_openai_csv_aux_eq]
      exact ho
    exact csvLoadAux_nodup o [] dO (by simp [dictKeys]) hx
  have hnA : (dictKeys dA).Nodup := by
    have hx : csvLoadAux "anthropic" [] a = .ok dA := by
      rw [← load_anthropic_csv_aux_eq]
      exact ha
    exact csvLoadAux_nodup a [] dA (by simp [dictKeys]) hx
  refine ⟨?_, ?_, hko, hka, hkg⟩
  · intro k hk
    have hng : k ∉ dictKeys dG := fun hx => by
      have h2 := hkg k hx
      rw [hko k hk] at h2
      exact absurd h2 (by decide)
    have hna : k ∉ dictKeys dA := fun hx => by
      have h2 := hka k hx
      rw [hko k hk] at h2
      exact absurd h2 (by decide)
    rw [hcomb, dictGet_update_of_notMem _ hng, dictGet_update_of_notMem _ hna,
      dictGet_update_of_mem _ hnO hk]
  · intro k hk
    have hng : k ∉ dictKeys dG := fun hx => by
      have h2 := hkg k hx
      rw [hka k hk] at h2
      exact absurd h2 (by decide)
    rw [hcomb, dictGet_update_of_notMem _ hng, dictGet_update_of_mem _ hnA hk]

/-- Witness for C6 at one single-row CSV per adapter (each cost 1 USD). -/
theorem C6_adapter_union_no_overwrite_witness :
    dictGet (combineProviderSums
        (some [(("openai", "gpt"), 100000000)])
        (some [(("anthropic", "claude"), 100000000)])
        (some [(("gemini", "gem"), 100000000)]))
      ("openai", "gpt") = some 100000000 := by
  have hv : 0 + usd_to_microcents ((natOfDigits ['1'] : ℕ) : ℚ) = 100000000 := by
    rw [show natOfDigits ['1'] = 1 from rfl]
    unfold usd_to_microcents pyRound
    norm_num
  have ho : load_openai_csv [⟨some "gpt", some "1"⟩]
      = .ok [(("openai", "gpt"), 0 + usd_to_microcents ((natOfDigits ['1'] : ℕ) : ℚ))] := rfl
  have ha : load_anthropic_csv [⟨some "claude", some "1"⟩]
      = .ok [(("anthropic", "claude"), 0 + usd_to_microcents ((natOfDigits ['1'] : ℕ) : ℚ))] :=
    rfl
  have hg : load_gemini_csv [⟨some "gem", some "1"⟩]
      = .ok [(("gemini", "gem"), 0 + usd_to_microcents ((natOfDigits ['1'] : ℕ) : ℚ))] := rfl
  rw [hv] at ho ha hg
  have h := (C6_adapter_union_no_overwrite _ _ _ _ _ _ ho ha hg).1
    ("openai", "gpt") (by simp [dictKeys])
  rw [h]
  rfl

theorem load_openai_csv_append_row (rows : List CsvRow) (d : MDict) (mr cr : String) (c : ℚ)
    (hload : load_openai_csv rows = .ok d)
    (hm : pyStrip mr ≠ "") (hc : pyStrip cr ≠ "") (hp : parseFloat (pyStrip cr) = .ok c) :
    load_openai_csv (rows ++ [⟨some mr, some cr⟩])
      = .ok (dictInsert d ("openai", pyStrip mr)
          (dictGetD d ("openai", pyStrip mr) 0 + usd_to_microcents c)) := by
  unfold load_openai_csv at *
  rw [load_openai_csv_aux_eq] at hload ⊢
  exact csvLoadAux_append_one rows [] d mr cr c hload hm hc hp

/-- C8: importing a CSV whose two rows share the `(provider, model)` key with
USD costs `a` and `b` yields the integer sum of the two individually
converted costs, and appending any further row for a key accumulates by
integer addition onto the stored sum. -/
theorem C8_aggregation_additivity (m ca cb : String) (a b : ℚ)
    (hm : pyStrip m ≠ "") (hca : pyStrip ca ≠ "") (hcb : pyStrip cb ≠ "")
    (hpa : parseFloat (pyStrip ca) = .ok a) (hpb : parseFloat (pyStrip cb) = .ok b) :
    (∃ d, load_openai_csv [⟨some m, some ca⟩, ⟨some m, some cb⟩] = .ok d
        ∧ dictGet d ("openai", pyStrip m)
            = some (usd_to_microcents a + usd_to_microcents b))
    ∧ (∀ (rows : List CsvRow) (d : MDict) (mr cr : String) (c : ℚ),
        load_openai_csv rows = .ok d →
        pyStrip mr ≠ "" → pyStrip cr ≠ "" → parseFloat (pyStrip cr) = .ok c →
        load_openai_csv (rows ++ [⟨some mr, some cr⟩])
          = .ok (dictInsert d ("openai", pyStrip mr)
              (dictGetD d ("openai", pyStrip mr) 0 + usd_to_microcents c))) := by
  constructor
  · have h1 : load_openai_csv [⟨some m, some ca⟩]
        = .ok (dictInsert [] ("openai", pyStrip m)
            (dictGetD [] ("openai", pyStrip m) 0 + usd_to_microcents a)) := by
      unfold load_openai_csv load_openai_csv_aux
      simp only [Option.getD_some]
      rw [if_neg (not_or.mpr ⟨hm, hca⟩), hpa]
      rfl
    have h2 := load_openai_csv_append_row _ _ _ _ _ h1 hm hcb hpb
    refine ⟨_, h2, ?_⟩
    rw [dictGet_insert_self]
    have h3 : dictGetD (dictInsert [] ("openai", pyStrip m)
        (dictGetD [] ("openai", pyStrip m) 0 + usd_to_microcents a)) ("openai", pyStrip m) 0
        = 0 + usd_to_microcents a := by
      unfold dictGetD
      rw [dictGet_insert_self]
      rfl
    rw [h3, zero_add]
  · intro rows d mr cr c hload hm2 hc2 hp2
    exact load_openai_csv_append_row rows d mr cr c hload hm2 hc2 hp2

/-- Witness for C8 at Scenario A's CSV (`0.003421` and `0.001000` for the
same model). -/
theorem C8_aggregation_additivity_witness :
    ∃ d, load_openai_csv [⟨some "gpt-5.2-pro", some "0.003421"⟩,
        ⟨some "gpt-5.2-pro", some "0.001000"⟩] = .ok d
      ∧ dictGet d ("openai", pyStrip "gpt-5.2-pro")
          = some (usd_to_microcents (3421 / 1000000) + usd_to_microcents (1 / 1000)) :=
  (C8_aggregation_additivity "gpt-5.2-pro" "0.003421" "0.001000" (3421 / 1000000) (1 / 1000)
    (by decide) (by decide) (by decide)
    (by
      have h1 : parseFloat (pyStrip "0.003421")
          = .ok ((natOfDigits ['0'] : ℚ)
              + (natOfDigits ['0', '0', '3', '4', '2', '1'] : ℚ) / (10 : ℚ) ^ 6) := rfl
      rw [h1, show natOfDigits ['0'] = 0 from rfl,
        show natOfDigits ['0', '0', '3', '4', '2', '1'] = 3421 from rfl]
      norm_num)
    (by
      have h1 : parseFloat (pyStrip "0.001000")
          = .ok ((natOfDigits ['0'] : ℚ)
              + (natOfDigits ['0', '0', '1', '0', '0', '0'] : ℚ) / (10 : ℚ) ^ 6) := rfl
      rw [h1, show natOfDigits ['0'] = 0 from rfl,
        show natOfDigits ['0', '0', '1', '0', '0', '0'] = 1000 from rfl]
      norm_num)).1

end SpendGuard
